import Mathlib

/-!
Shallow embedding of the `encoding/binary` decode engine of the
`quarnster/util` repository (file `src/encoding/binary/reader.go`) together
with its expression sublanguage (grammar `src/encoding/binary/expression/expression.peg`).

Modelling conventions:
* Go machine integers are modelled as `Nat`/`Int`; the byte source is a
  `List Nat` of byte values together with a position, mirroring a seekable
  in-memory reader (`bytes.Reader` semantics: relative seeks may land past
  the end, a negative final position is an error, reads past the end fail).
* Every call of `BinaryReader.Read` and `BinaryReader.Seek` is recorded in
  an event trace so that statements about the reads and seeks the engine
  issues can be expressed.
* Fallible Go functions returning `error` become `Except Err`.
-/

namespace BinUtil

/-! ## Expression AST (leaf constants, dotted paths, binary nodes) -/

inductive BinOp where
  | shr | shl | andNot | and | add | sub | mul
  | eq | ne | lt | le | gt | ge
deriving DecidableEq, Repr

inductive Expr where
  | const (n : Int)
  | path (ids : List String)
  | bin (op : BinOp) (l r : Expr)
deriving DecidableEq, Repr

/-! ## PEG parser, translated rule by rule from `expression.peg`.

The grammar (ordered choice, committed once an alternative succeeds):
```
Expression    <- (Op / Grouping) EndOfFile
Op            <- ShiftRight / ShiftLeft / AndNot / Mask / Add / Sub / Mul / BooleanOp
BooleanOp     <- Eq / Lt / Gt / Le / Ge / Ne
Grouping      <- Spacing? ('(' Op ')' / Constant / DotIdentifier) Spacing?
DotIdentifier <- Identifier ('.' Identifier)*
Identifier    <- [A-Z] [_A-Za-z0-9]*
Constant      <- ("0x" [a-fA-F0-9]+) / [0-9]+
Spacing       <- [ \t\n\r]+
```
Each binary operator rule is `Grouping <token> Grouping`.  The parser is
written with a fuel argument so that it is structurally recursive; the
top-level entry point supplies ample fuel (nesting consumes fuel, and each
nesting level consumes at least one input character). -/

def isSpaceChar (c : Char) : Bool := c == ' ' || c == '\t' || c == '\n' || c == '\r'

def skipSpacing (cs : List Char) : List Char := cs.dropWhile isSpaceChar

def isDigitChar (c : Char) : Bool := '0' ≤ c && c ≤ '9'

def isHexChar (c : Char) : Bool :=
  isDigitChar c || ('a' ≤ c && c ≤ 'f') || ('A' ≤ c && c ≤ 'F')

def isUpperChar (c : Char) : Bool := 'A' ≤ c && c ≤ 'Z'

def isIdentTailChar (c : Char) : Bool :=
  c == '_' || isDigitChar c || ('a' ≤ c && c ≤ 'z') || isUpperChar c

def digitVal (c : Char) : Nat :=
  if isDigitChar c then c.toNat - '0'.toNat
  else if 'a' ≤ c && c ≤ 'f' then c.toNat - 'a'.toNat + 10
  else c.toNat - 'A'.toNat + 10

def foldDigits (base : Nat) (ds : List Char) : Nat :=
  ds.foldl (fun a c => a * base + digitVal c) 0

/-- Rule `Constant <- ("0x" [a-fA-F0-9]+) / [0-9]+` (ordered choice). -/
def parseConstant (cs : List Char) : Option (Int × List Char) :=
  let hexCase : Option (Int × List Char) :=
    match cs with
    | '0' :: 'x' :: rest =>
      let ds := rest.takeWhile isHexChar
      if ds.isEmpty then none
      else some (((foldDigits 16 ds : Nat) : Int), rest.drop ds.length)
    | _ => none
  match hexCase with
  | some r => some r
  | none =>
    let ds := cs.takeWhile isDigitChar
    if ds.isEmpty then none
    else some (((foldDigits 10 ds : Nat) : Int), cs.drop ds.length)

/-- Rule `Identifier <- [A-Z] [_A-Za-z0-9]*`. -/
def parseIdent (cs : List Char) : Option (String × List Char) :=
  match cs with
  | c :: rest =>
    if isUpperChar c then
      let tl := rest.takeWhile isIdentTailChar
      some (String.mk (c :: tl), rest.drop tl.length)
    else none
  | [] => none

/-- The `('.' Identifier)*` tail of `DotIdentifier`. -/
def parseDotTail : Nat → List Char → List String × List Char
  | 0, cs => ([], cs)
  | fuel + 1, cs =>
    match cs with
    | '.' :: rest =>
      match parseIdent rest with
      | some (id, rest2) =>
        let (ids, rest3) := parseDotTail fuel rest2
        (id :: ids, rest3)
      | none => ([], cs)
    | _ => ([], cs)

/-- Rule `DotIdentifier <- Identifier ('.' Identifier)*`. -/
def parseDotIdent (cs : List Char) : Option (List String × List Char) :=
  match parseIdent cs with
  | some (id, rest) =>
    let (ids, rest2) := parseDotTail rest.length rest
    some (id :: ids, rest2)
  | none => none

/-- Match a literal operator token. -/
def dropTok : List Char → List Char → Option (List Char)
  | [], cs => some cs
  | t :: ts, c :: cs => if c == t then dropTok ts cs else none
  | _ :: _, [] => none

mutual

/-- Rule `Op`: the thirteen binary-operator alternatives tried in the fixed
order of `expression.peg` (`>>`, `<<`, `&^`, `&`, `+`, `-`, `*`, then the
boolean operators `==`, `<`, `>`, `<=`, `>=`, `!=`); each alternative is
`Grouping <token> Grouping`. -/
def parseOp : Nat → List Char → Option (Expr × List Char)
  | 0, _ => none
  | fuel + 1, cs =>
    let pb : List Char → BinOp → Option (Expr × List Char) := fun tok op =>
      match parseGrouping fuel cs with
      | none => none
      | some (l, r1) =>
        match dropTok tok r1 with
        | none => none
        | some r2 =>
          match parseGrouping fuel r2 with
          | none => none
          | some (r, r3) => some (.bin op l r, r3)
    (pb ['>', '>'] .shr).orElse fun _ =>
    (pb ['<', '<'] .shl).orElse fun _ =>
    (pb ['&', '^'] .andNot).orElse fun _ =>
    (pb ['&'] .and).orElse fun _ =>
    (pb ['+'] .add).orElse fun _ =>
    (pb ['-'] .sub).orElse fun _ =>
    (pb ['*'] .mul).orElse fun _ =>
    (pb ['=', '='] .eq).orElse fun _ =>
    (pb ['<'] .lt).orElse fun _ =>
    (pb ['>'] .gt).orElse fun _ =>
    (pb ['<', '='] .le).orElse fun _ =>
    (pb ['>', '='] .ge).orElse fun _ =>
    pb ['!', '='] .ne

/-- Rule `Grouping <- Spacing? ('(' Op ')' / Constant / DotIdentifier) Spacing?`. -/
def parseGrouping : Nat → List Char → Option (Expr × List Char)
  | 0, _ => none
  | fuel + 1, cs =>
    let cs1 := skipSpacing cs
    let parenCase : Option (Expr × List Char) :=
      match cs1 with
      | '(' :: rest =>
        match parseOp fuel rest with
        | some (e, r1) =>
          match r1 with
          | ')' :: r2 => some (e, r2)
          | _ => none
        | none => none
      | _ => none
    let core :=
      match parenCase with
      | some r => some r
      | none =>
        match parseConstant cs1 with
        | some (n, r) => some (Expr.const n, r)
        | none =>
          match parseDotIdent cs1 with
          | some (ids, r) => some (Expr.path ids, r)
          | none => none
    match core with
    | some (e, r) => some (e, skipSpacing r)
    | none => none

end

/-- Rule `Expression <- (Op / Grouping) EndOfFile`: the committed ordered
choice of the PEG — if `Op` succeeds but input remains, the parse fails
(there is no re-exploration of the other alternative).  This is
`EXPRESSION.Parse` of the generated parser: `some ast` on success, `none`
on a parse error. -/
def parseExpression (s : String) : Option Expr :=
  let cs := s.toList
  let fuel := 2 * cs.length + 4
  match parseOp fuel cs with
  | some (e, rest) => if rest.isEmpty then some e else none
  | none =>
    match parseGrouping fuel cs with
    | some (e, rest) => if rest.isEmpty then some e else none
    | none => none

/-! ## Executable bitwise arithmetic

Go's `&` and `&^` on `int` operate on two's-complement integers.  They are
modelled on unbounded `Int` (faithful to `int64` whenever no overflow
occurs).  The `Nat`-level workhorse is a fuel-driven structural recursion
so that the kernel can evaluate it. -/

def natBitAux (f : Bool → Bool → Bool) : Nat → Nat → Nat → Nat
  | 0, _, _ => 0
  | fuel + 1, m, n =>
    (cond (f (m % 2 == 1) (n % 2 == 1)) 1 0) + 2 * natBitAux f fuel (m / 2) (n / 2)

def natOp (f : Bool → Bool → Bool) (m n : Nat) : Nat := natBitAux f (m + n + 1) m n

def natAnd (m n : Nat) : Nat := natOp (fun a b => a && b) m n

def natOr (m n : Nat) : Nat := natOp (fun a b => a || b) m n

/-- Bitwise difference `m AND (NOT n)` on naturals. -/
def natDiffBits (m n : Nat) : Nat := natOp (fun a b => a && !b) m n

/-- Two's-complement bitwise AND on `Int` (the semantics of Go's `&`). -/
def intAnd : Int → Int → Int
  | .ofNat m, .ofNat n => .ofNat (natAnd m n)
  | .ofNat m, .negSucc n => .ofNat (natDiffBits m n)
  | .negSucc m, .ofNat n => .ofNat (natDiffBits n m)
  | .negSucc m, .negSucc n => .negSucc (natOr m n)

/-- Two's-complement bitwise NOT on `Int` (Go's `^x`). -/
def intNot (a : Int) : Int := -a - 1

/-- Go's `&^` (AND NOT) on `int`. -/
def intAndNot (a b : Int) : Int := intAnd a (intNot b)

/-! ## Record values

A `Value` is the shallow embedding of a (pointed-to) Go value of one of
the kinds the decode engine dispatches on.  Floats are carried as their
raw bit patterns, exactly as `BinaryReader.Float32/Float64` produce them
by reinterpreting the integer read (no NaN or infinity special-casing). -/

inductive Value where
  | vBool (b : Bool)
  | vUInt (n : Nat)
  | vInt (n : Int)
  | vF32 (bits : Nat)
  | vF64 (bits : Nat)
  | vStr (bytes : List Nat)
  | vSlice (elems : List Value)
  | vStruct (fields : List (String × Value))

/-- The struct-tag directives the engine consults per field
(`if`, `skip`, `length`, `max`, `align`), each an uninterpreted tag
string exactly as in the Go source. -/
structure Tags where
  cond : Option String := none
  skip : Option String := none
  length : Option String := none
  max : Option String := none
  align : Option String := none
deriving DecidableEq

/-- The closed set of destination kinds the engine's `switch v2.Kind()`
dispatches on.  `uDef`/`iDef` are Go's unsized `uint`/`int` (read at
64 bits).  A struct type is its ordered list of (name, tags, field type). -/
inductive Ty where
  | bool | u8 | u16 | u32 | u64 | uDef
  | i8 | i16 | i32 | i64 | iDef
  | f32 | f64
  | str
  | arr (n : Nat) (elem : Ty)
  | slice (elem : Ty)
  | strct (fields : List (String × Tags × Ty))

mutual

/-- The zero `Value` of a type: what a freshly allocated Go destination
holds before decoding touches it. -/
def goZero : Ty → Value
  | .bool => .vBool false
  | .u8 | .u16 | .u32 | .u64 | .uDef => .vUInt 0
  | .i8 | .i16 | .i32 | .i64 | .iDef => .vInt 0
  | .f32 => .vF32 0
  | .f64 => .vF64 0
  | .str => .vStr []
  | .arr n e => .vSlice (List.replicate n (goZero e))
  | .slice _ => .vSlice []
  | .strct fields => .vStruct (goZeroFields fields)

/-- Zero values of a struct's fields, in declaration order. -/
def goZeroFields : List (String × Tags × Ty) → List (String × Value)
  | [] => []
  | (name, _, t) :: rest => (name, goZero t) :: goZeroFields rest

end

/-! ## Expression evaluator -/

/-- An integer view of a field value reached by a dotted path
(signed and unsigned integer kinds only). -/
def valueToInt : Value → Option Int
  | .vUInt n => some (n : Int)
  | .vInt n => some n
  | _ => none

/-- Modelled from the spec: the expression evaluator's source (`eval.go`)
is not under `src/` — only its test `eval_test.go` is.  Spec §4.2: a
dotted identifier resolves by walking the identifier chain through the
context record's fields; the first identifier must be a field of the
top-level context and each subsequent identifier a field of the previous
step's record-typed value; an unknown field name or descending through a
non-record value is an evaluation error (`none`). -/
def resolvePath : Value → List String → Option Int
  | v, [] => valueToInt v
  | .vStruct fields, id :: rest =>
    match fields.find? (fun f => f.1 = id) with
    | some f => resolvePath f.2 rest
    | none => none
  | _, _ :: _ => none

/-- Modelled from the spec: binary-operator semantics of §4.2 — `add`,
`sub`, `mul` are integer arithmetic; `shift-left`/`shift-right` are
shifts by the right operand; `bitwise-and` is two's-complement AND;
`bitwise-and-not` is `left AND (NOT right)`; every comparison yields `1`
for true and `0` for false.  (Confirmed against `eval_test.go`, e.g.
`"(Length+3)&^3"` with `Length = 3` evaluating to `4`.) -/
def evalBin (op : BinOp) (a b : Int) : Int :=
  match op with
  | .add => a + b
  | .sub => a - b
  | .mul => a * b
  | .shl => a * 2 ^ b.toNat
  | .shr => a / 2 ^ b.toNat
  | .and => intAnd a b
  | .andNot => intAndNot a b
  | .eq => if a = b then 1 else 0
  | .ne => if a ≠ b then 1 else 0
  | .lt => if a < b then 1 else 0
  | .le => if a ≤ b then 1 else 0
  | .gt => if a > b then 1 else 0
  | .ge => if a ≥ b then 1 else 0

/-- Modelled from the spec: `Eval(context, ast)` of §4.2 (`eval.go` is
not under `src/`).  Leaf constants evaluate to themselves, dotted paths
resolve against the context record, binary nodes evaluate left then
right and apply the operator; `none` is an evaluation error. -/
def Eval (ctx : Value) : Expr → Option Int
  | .const n => some n
  | .path ids => resolvePath ctx ids
  | .bin op l r =>
    match Eval ctx l with
    | none => none
    | some a =>
      match Eval ctx r with
      | none => none
      | some b => some (evalBin op a b)

/-! ## Byte-level reader (`BinaryReader`)

The reader owns a seekable in-memory byte source and a byte order.  Every
invocation of `BinaryReader.Read` and of `BinaryReader.Seek` is recorded
in the trace (the engine only ever seeks with `whence = 1`, i.e.
relative to the current position). -/

inductive Endian where
  | big | little
deriving DecidableEq

/-- Which engine call site issued a relative seek: the `skip` directive
(reader.go line 197) or alignment padding (line 324). -/
inductive SeekSite where
  | skip | align
deriving DecidableEq

inductive Ev where
  | read (n : Nat)
  | seek (site : SeekSite) (off : Int)
deriving DecidableEq

inductive Err where
  | shortRead
  | seekErr
  | parseErr
  | evalErr
  | notAddressable
  | missingLength
  | makeSliceNegLen
  | assignKindMismatch
  | validationFailed
  | fuelExhausted
deriving DecidableEq

structure BinaryReader where
  Endianess : Endian
  data : List Nat
  pos : Nat
  trace : List Ev
deriving DecidableEq

/-- Go `BinaryReader.Read(size)`: allocate `size` bytes and require the
source to fill all of them; a short or failed read is an error
(`"Didn't read the expected number of bytes"` / the source's EOF error).
`size = 0` succeeds without touching the source. -/
def BinaryReader.Read (r : BinaryReader) (size : Nat) : Except Err (List Nat × BinaryReader) :=
  let r := { r with trace := r.trace ++ [Ev.read size] }
  if size = 0 then .ok ([], r)
  else if r.pos + size ≤ r.data.length then
    .ok ((r.data.drop r.pos).take size, { r with pos := r.pos + size })
  else .error .shortRead

/-- Go `BinaryReader.Seek(offset, 1)`: a relative seek on the underlying
source.  An in-memory seeker accepts any position that is not negative
(seeking past the end is allowed); a negative resulting position is an
error. -/
def BinaryReader.Seek (r : BinaryReader) (site : SeekSite) (off : Int) : Except Err BinaryReader :=
  let r := { r with trace := r.trace ++ [Ev.seek site off] }
  if (r.pos : Int) + off < 0 then .error .seekErr
  else .ok { r with pos := ((r.pos : Int) + off).toNat }

/-- Interpret a big-endian byte sequence. -/
def beVal (bs : List Nat) : Nat := bs.foldl (fun a b => a * 256 + b) 0

/-- Interpret bytes according to the reader's byte order. -/
def endVal (e : Endian) (bs : List Nat) : Nat :=
  match e with
  | .big => beVal bs
  | .little => beVal bs.reverse

/-- Two's-complement reading of a `w`-bit pattern as a signed integer. -/
def toSigned (w : Nat) (n : Nat) : Int :=
  if n < 2 ^ (w - 1) then (n : Int) else (n : Int) - 2 ^ w

def BinaryReader.Uint8 (r : BinaryReader) : Except Err (Nat × BinaryReader) :=
  match r.Read 1 with
  | .error e => .error e
  | .ok (bs, r') => .ok (endVal r.Endianess bs, r')

def BinaryReader.Uint16 (r : BinaryReader) : Except Err (Nat × BinaryReader) :=
  match r.Read 2 with
  | .error e => .error e
  | .ok (bs, r') => .ok (endVal r.Endianess bs, r')

def BinaryReader.Uint32 (r : BinaryReader) : Except Err (Nat × BinaryReader) :=
  match r.Read 4 with
  | .error e => .error e
  | .ok (bs, r') => .ok (endVal r.Endianess bs, r')

def BinaryReader.Uint64 (r : BinaryReader) : Except Err (Nat × BinaryReader) :=
  match r.Read 8 with
  | .error e => .error e
  | .ok (bs, r') => .ok (endVal r.Endianess bs, r')

def BinaryReader.Int8 (r : BinaryReader) : Except Err (Int × BinaryReader) :=
  match r.Read 1 with
  | .error e => .error e
  | .ok (bs, r') => .ok (toSigned 8 (endVal r.Endianess bs), r')

def BinaryReader.Int16 (r : BinaryReader) : Except Err (Int × BinaryReader) :=
  match r.Uint16 with
  | .error e => .error e
  | .ok (n, r') => .ok (toSigned 16 n, r')

def BinaryReader.Int32 (r : BinaryReader) : Except Err (Int × BinaryReader) :=
  match r.Uint32 with
  | .error e => .error e
  | .ok (n, r') => .ok (toSigned 32 n, r')

def BinaryReader.Int64 (r : BinaryReader) : Except Err (Int × BinaryReader) :=
  match r.Uint64 with
  | .error e => .error e
  | .ok (n, r') => .ok (toSigned 64 n, r')

/-- Go `Float32` reinterprets the bit pattern of an `Int32` read; the raw
32-bit pattern is what the model carries. -/
def BinaryReader.Float32 (r : BinaryReader) : Except Err (Nat × BinaryReader) :=
  match r.Uint32 with
  | .error e => .error e
  | .ok (n, r') => .ok (n, r')

/-- Go `Float64` reinterprets the bit pattern of an `Int64` read. -/
def BinaryReader.Float64 (r : BinaryReader) : Except Err (Nat × BinaryReader) :=
  match r.Uint64 with
  | .error e => .error e
  | .ok (n, r') => .ok (n, r')

/-! ## Schema-driven decode engine (`BinaryReader.ReadInterface`) -/

/-- Parse a directive tag string and evaluate it against the record being
decoded — the `!e.Parse(..) → e.Error()` / `Eval(&v2, ..) → err` pattern
repeated at reader.go lines 181-189, 191-199, 228-237, 255-264, 305-317. -/
def evalTag (ctx : Value) (tag : String) : Except Err Int :=
  match parseExpression tag with
  | none => .error .parseErr
  | some ex =>
    match Eval ctx ex with
    | none => .error .evalErr
    | some n => .ok n

mutual

/-- Go struct alignment of a kind (amd64 rules), needed for
`reflect.Type.Size` of struct kinds. -/
def goAlignOf : Ty → Nat
  | .bool | .u8 | .i8 => 1
  | .u16 | .i16 => 2
  | .u32 | .i32 | .f32 => 4
  | .u64 | .i64 | .uDef | .iDef | .f64 | .str | .slice _ => 8
  | .arr _ e => goAlignOf e
  | .strct fields => goAlignFields fields 1

/-- Maximum alignment over a struct's fields (at least 1). -/
def goAlignFields : List (String × Tags × Ty) → Nat → Nat
  | [], acc => acc
  | (_, _, t) :: rest, acc => goAlignFields rest (Nat.max acc (goAlignOf t))

end

def roundUpNat (o a : Nat) : Nat := (o + a - 1) / a * a

mutual

/-- Go `reflect.Type.Size` (amd64): in-memory size of a value of the
kind, including struct padding — this is what the engine records as
`size` for fields decoded through the default branch (reader.go line
301). -/
def goSize : Ty → Nat
  | .bool | .u8 | .i8 => 1
  | .u16 | .i16 => 2
  | .u32 | .i32 | .f32 => 4
  | .u64 | .i64 | .uDef | .iDef | .f64 => 8
  | .str => 16
  | .slice _ => 24
  | .arr n e => n * goSize e
  | .strct fields => roundUpNat (goSizeFields fields 0) (goAlignOf (.strct fields))

/-- Struct layout fold: place each field at its aligned offset and add
its size. -/
def goSizeFields : List (String × Tags × Ty) → Nat → Nat
  | [], off => off
  | (_, _, t) :: rest, off => goSizeFields rest (roundUpNat off (goAlignOf t) + goSize t)

end

/-- The alignment-correction seek amount of reader.go lines 318-322:
round up `size` with the bitmask `&^ (align - 1)` when the alignment is
below the recorded size, pad up to `align` when it is above, nothing
when equal. -/
def goAlignSeek (size align : Int) : Int :=
  if align < size then intAndNot (size + (align - 1)) (align - 1) - size
  else if align > size then align - size
  else 0

/-- Alignment processing (reader.go lines 318-327): compute the
correction and seek forward only when it is positive. -/
def alignAdjust (size align : Int) (r : BinaryReader) : Except Err BinaryReader :=
  let seek := goAlignSeek size align
  if seek > 0 then r.Seek .align seek else .ok r

/-- Resolution of a `length` directive (reader.go lines 202-238): the
literal markers `uint8|uint16|uint32|uint64` read a length prefix of
that width from the source; any other tag text is an expression
evaluated against the enclosing record. -/
def resolveLength (ctx : Value) (l : String) (r : BinaryReader) :
    Except Err (Int × BinaryReader) :=
  match l with
  | "uint8" =>
    match r.Uint8 with
    | .error e => .error e
    | .ok (s, r') => .ok ((s : Int), r')
  | "uint16" =>
    match r.Uint16 with
    | .error e => .error e
    | .ok (s, r') => .ok ((s : Int), r')
  | "uint32" =>
    match r.Uint32 with
    | .error e => .error e
    | .ok (s, r') => .ok ((s : Int), r')
  | "uint64" =>
    match r.Uint64 with
    | .error e => .error e
    | .ok (s, r') => .ok ((s : Int), r')
  | _ =>
    match evalTag ctx l with
    | .error e => .error e
    | .ok n => .ok (n, r)

/-- Truncation at the first embedded null byte (reader.go lines
247-252): `data = data[:i]` at the first zero, the rest is discarded. -/
def truncAtNull (data : List Nat) : List Nat := data.takeWhile (fun b => b ≠ 0)

/-- The byte-at-a-time null-terminated read loop (reader.go lines
163-171 and 266-275): up to `fuel` iterations, stop at the first null
byte (excluded from the result).  The middle component is `i + 1` when a
null was found at iteration `i` — the value the struct branch assigns to
`size` — and `none` when the iteration bound was reached first. -/
def readCString : Nat → List Nat → BinaryReader → Except Err (List Nat × Option Nat × BinaryReader)
  | 0, acc, r => .ok (acc, none, r)
  | fuel + 1, acc, r =>
    match r.Uint8 with
    | .error e => .error e
    | .ok (u, r') =>
      if u = 0 then .ok (acc, some (acc.length + 1), r')
      else readCString fuel (acc ++ [u]) r'

/-- Evaluation of an optional `if` directive: `true` means the field is
skipped entirely (reader.go lines 181-190). -/
def condSkips (ctx : Value) (tags : Tags) : Except Err Bool :=
  match tags.cond with
  | some c =>
    match evalTag ctx c with
    | .error e => .error e
    | .ok ev => .ok (ev == 0)
  | none => .ok false

/-- Processing of an optional `skip` directive (reader.go lines
191-200): evaluate and seek forward relative to the current position by
the resulting value. -/
def skipAdjust (ctx : Value) (tags : Tags) (r : BinaryReader) : Except Err BinaryReader :=
  match tags.skip with
  | some sk =>
    match evalTag ctx sk with
    | .error e => .error e
    | .ok ev => r.Seek .skip ev
  | none => .ok r

/-- Resolution of an optional `length` directive; `-1` (the initial
value of the Go local `size`, line 178) means no length is known. -/
def resolveLengthTag (ctx : Value) (tags : Tags) (r : BinaryReader) :
    Except Err (Int × BinaryReader) :=
  match tags.length with
  | some l => resolveLength ctx l r
  | none => .ok (-1, r)

/-- Resolution of the optional `max` directive for unbounded strings
(reader.go lines 254-264), defaulting to `math.MaxInt32`. -/
def resolveMaxTag (ctx : Value) (tags : Tags) : Except Err Int :=
  match tags.max with
  | some m => evalTag ctx m
  | none => .ok (2147483647 : Int)

/-- Kind tags for the dynamic assignability check of `reflect.Value.Set`. -/
def kindTag : Ty → Nat
  | .bool => 0
  | .u8 => 1
  | .u16 => 2
  | .u32 => 3
  | .u64 => 4
  | .uDef => 5
  | .i8 => 6
  | .i16 => 7
  | .i32 => 8
  | .i64 => 9
  | .iDef => 10
  | .f32 => 11
  | .f64 => 12
  | .str => 13
  | .arr _ _ => 14
  | .slice _ => 15
  | .strct _ => 16

/-- Go assignability as `reflect.Value.Set` checks it dynamically, for
the shapes the engine assigns (slices of scalar kinds): the kinds and,
for slices, the element kinds must coincide; assigning a `[]uint8` value
to a `[]int8` destination panics. -/
def assignable (src dst : Ty) : Bool :=
  (kindTag src == kindTag dst) &&
    (match src, dst with
     | .slice a, .slice b => kindTag a == kindTag b
     | _, _ => true)

/-- The current value of a named field of the struct being decoded. -/
def fieldVal (cur : List (String × Value)) (name : String) (fty : Ty) : Value :=
  match cur.find? (fun p => p.1 = name) with
  | some p => p.2
  | none => goZero fty

/-- Replace a named field's value in the struct being decoded. -/
def updateField (cur : List (String × Value)) (name : String) (v : Value) :
    List (String × Value) :=
  cur.map fun f => if f.1 = name then (f.1, v) else f

mutual

/-- Recursion-depth bound of a destination type: the decode engine's
recursion (kind dispatch recursing into elements and fields) descends
only into structurally smaller types, so its depth is bounded by the
type's nesting depth. -/
def tyDepth : Ty → Nat
  | .arr _ e => tyDepth e + 1
  | .slice e => tyDepth e + 1
  | .strct fields => tyDepthFields fields 0 + 1
  | _ => 1

/-- Maximum nesting depth over a struct's field types. -/
def tyDepthFields : List (String × Tags × Ty) → Nat → Nat
  | [], acc => acc
  | (_, _, t) :: rest, acc => tyDepthFields rest (Nat.max acc (tyDepth t))

end

/-- Element-by-element decode of the existing elements of an array or
slice destination (reader.go lines 147-158 and 288-296) in index order,
parameterised by the recursive `ReadInterface` call on one element
(`rv`). -/
def readElems (rv : Value → BinaryReader → Except Err (Value × BinaryReader)) :
    List Value → BinaryReader → Except Err (List Value × BinaryReader)
  | [], r => .ok ([], r)
  | v :: rest, r =>
    match rv v r with
    | .error err => .error err
    | .ok (v', r') =>
      match readElems rv rest r' with
      | .error err => .error err
      | .ok (vs', r'') => .ok (v' :: vs', r'')

/-- The per-field switch on `f.Type().Kind()` (reader.go lines 240-303),
given the resolved `size` and the recursive kind dispatch `rv`.  Returns
the decoded field value, the updated `size` local, and the reader. -/
def readFieldBody (rv : Ty → Value → BinaryReader → Except Err (Value × BinaryReader))
    (ctx : Value) (tags : Tags) (fty : Ty) (fval : Value) (size : Int)
    (r : BinaryReader) : Except Err (Value × Int × BinaryReader) :=
  match fty with
  | .str =>
    if size ≥ 0 then
      match r.Read size.toNat with
      | .error e => .error e
      | .ok (data, r') => .ok (.vStr (truncAtNull data), size, r')
    else
      match resolveMaxTag ctx tags with
      | .error e => .error e
      | .ok mx =>
        match readCString mx.toNat [] r with
        | .error e => .error e
        | .ok (data, found, r') =>
          .ok (.vStr data, (match found with | some k => (k : Int) | none => size), r')
  | .slice elemT =>
    if size = -1 then .error .missingLength
    else
      match elemT with
      | .i8 =>
        if size < 0 then .error .makeSliceNegLen
        else
          match r.Read size.toNat with
          | .error e => .error e
          | .ok (b, r') =>
            if assignable (.slice .u8) (.slice .i8) then .ok (.vSlice (b.map .vUInt), size, r')
            else .error .assignKindMismatch
      | et =>
        if size < 0 then .error .makeSliceNegLen
        else
          match readElems (rv et) (List.replicate size.toNat (goZero et)) r with
          | .error e => .error e
          | .ok (vs, r') => .ok (.vSlice vs, size, r')
  | other =>
    match rv other fval r with
    | .error e => .error e
    | .ok (v', r') => .ok (v', (goSize other : Int), r')

/-- The field iteration of the struct branch (reader.go lines 173-329),
parameterised by the field-body processor `fb`: for each field in
declaration order, evaluate `if` (a zero value skips the field
entirely), perform the `skip` seek, resolve `length`, decode the field
through the kind switch, store the value, then perform alignment
processing — each directive evaluated against the record value built so
far (`&v2`). -/
def readFields
    (fb : Value → Tags → Ty → Value → Int → BinaryReader → Except Err (Value × Int × BinaryReader)) :
    List (String × Tags × Ty) → List (String × Value) → BinaryReader →
    Except Err (List (String × Value) × BinaryReader)
  | [], cur, r => .ok (cur, r)
  | (name, tags, fty) :: rest, cur, r =>
    match condSkips (.vStruct cur) tags with
    | .error e => .error e
    | .ok true => readFields fb rest cur r
    | .ok false =>
      match skipAdjust (.vStruct cur) tags r with
      | .error e => .error e
      | .ok r1 =>
        match resolveLengthTag (.vStruct cur) tags r1 with
        | .error e => .error e
        | .ok (size, r2) =>
          match fb (.vStruct cur) tags fty (fieldVal cur name fty) size r2 with
          | .error e => .error e
          | .ok (v', size', r3) =>
            let cur' := updateField cur name v'
            match tags.align with
            | some al =>
              match evalTag (.vStruct cur') al with
              | .error e => .error e
              | .ok alv =>
                match alignAdjust size' alv r3 with
                | .error e => .error e
                | .ok r4 => readFields fb rest cur' r4
            | none => readFields fb rest cur' r3

/-- The kind dispatch of `BinaryReader.ReadInterface` (reader.go lines
68-332) on the pointed-to destination `v2`, for destinations that do not
implement the custom `Reader` interface.  `v` is the destination's
current value (Go decodes in place: existing slice lengths and struct
field values are visible).  The fuel argument is an artifact of the
embedding that bounds the recursion depth; it is decremented once per
nesting level, so any fuel of at least `tyDepth ty` behaves like the Go
recursion (which is bounded by the static nesting of the destination
type). -/
def ReadValue : Nat → Ty → Value → BinaryReader → Except Err (Value × BinaryReader)
  | 0, _, _, _ => .error .fuelExhausted
  | fuel + 1, ty, v, r =>
    match ty with
    | .bool =>
      match r.Uint8 with
      | .error e => .error e
      | .ok (d, r') => .ok (.vBool (d != 0), r')
    | .uDef =>
      match r.Uint64 with
      | .error e => .error e
      | .ok (d, r') => .ok (.vUInt d, r')
    | .u64 =>
      match r.Uint64 with
      | .error e => .error e
      | .ok (d, r') => .ok (.vUInt d, r')
    | .u32 =>
      match r.Uint32 with
      | .error e => .error e
      | .ok (d, r') => .ok (.vUInt d, r')
    | .u16 =>
      match r.Uint16 with
      | .error e => .error e
      | .ok (d, r') => .ok (.vUInt d, r')
    | .u8 =>
      match r.Uint8 with
      | .error e => .error e
      | .ok (d, r') => .ok (.vUInt d, r')
    | .iDef =>
      match r.Int64 with
      | .error e => .error e
      | .ok (d, r') => .ok (.vInt d, r')
    | .i64 =>
      match r.Int64 with
      | .error e => .error e
      | .ok (d, r') => .ok (.vInt d, r')
    | .i32 =>
      match r.Int32 with
      | .error e => .error e
      | .ok (d, r') => .ok (.vInt d, r')
    | .i16 =>
      match r.Int16 with
      | .error e => .error e
      | .ok (d, r') => .ok (.vInt d, r')
    | .i8 =>
      match r.Int8 with
      | .error e => .error e
      | .ok (d, r') => .ok (.vInt d, r')
    | .f32 =>
      match r.Float32 with
      | .error e => .error e
      | .ok (d, r') => .ok (.vF32 d, r')
    | .f64 =>
      match r.Float64 with
      | .error e => .error e
      | .ok (d, r') => .ok (.vF64 d, r')
    | .arr n e =>
      let es :=
        match v with
        | .vSlice es => if es.length = n then es else List.replicate n (goZero e)
        | _ => List.replicate n (goZero e)
      match readElems (ReadValue fuel e) es r with
      | .error err => .error err
      | .ok (es', r') => .ok (.vSlice es', r')
    | .slice e =>
      let es :=
        match v with
        | .vSlice es => es
        | _ => []
      match readElems (ReadValue fuel e) es r with
      | .error err => .error err
      | .ok (es', r') => .ok (.vSlice es', r')
    | .str =>
      match readCString 2147483647 [] r with
      | .error e => .error e
      | .ok (data, _, r') => .ok (.vStr data, r')
    | .strct fields =>
      let cur :=
        match v with
        | .vStruct cur => cur
        | _ =>
          match goZero (.strct fields) with
          | .vStruct cur => cur
          | _ => []
      match readFields (readFieldBody (ReadValue fuel)) fields cur r with
      | .error e => .error e
      | .ok (cur', r') => .ok (.vStruct cur', r')


/-- A top-level decode destination as `ReadInterface` sees it: an
optional implementation of the custom `Reader` interface (`Read(r)`
populates the destination and advances the reader), an optional
implementation of `Validateable` (`Validate()` returning `some err` or
`none`), whether the destination is a pointer, and the pointed-to type
and current value.  The modelled field kinds implement neither
interface, so the engine's recursive `ReadInterface` calls on elements
and fields reduce to the generic dispatch `ReadValue`. -/
structure GoDest where
  customRead : Option (BinaryReader → Except Err (Value × BinaryReader))
  validate : Option (Option Err)
  isPtr : Bool
  ty : Ty
  init : Value

/-- Go `BinaryReader.ReadInterface` (reader.go lines 59-337): if the
destination implements `Reader`, return its custom `Read` result
directly (lines 60-62); otherwise a non-pointer destination is the
`"Expected a pointer"` error (lines 63-66); otherwise dispatch by kind,
and on success consult `Validateable` (lines 333-335), whose failure
becomes the call's result. -/
def ReadInterface (d : GoDest) (r : BinaryReader) : Except Err (Value × BinaryReader) :=
  match d.customRead with
  | some f => f r
  | none =>
    if !d.isPtr then .error .notAddressable
    else
      match ReadValue (tyDepth d.ty) d.ty d.init r with
      | .error e => .error e
      | .ok (v, r') =>
        match d.validate with
        | some (some err) => .error err
        | some none => .ok (v, r')
        | none => .ok (v, r')

/-! ## Spec-side definitions (for refinement comparison only)

These two definitions follow the specification's words, not the source;
they exist solely to be compared against the engine's `goAlignSeek`. -/

/-- Stated from the spec's words (§4.4 step (e)): `round_up(consumed, A)`,
the smallest multiple of `A` that is at least `consumed`. -/
def specRoundUp (consumed A : Nat) : Nat := (consumed + A - 1) / A * A

/-- Stated from the spec's words: "if `A` is less than the bytes
consumed, seek forward by `round_up(consumed, A) - consumed`; if `A` is
greater, seek forward by `A - consumed`; if equal, no seek." -/
def specAlignSeek (consumed A : Nat) : Int :=
  if A < consumed then (specRoundUp consumed A : Int) - consumed
  else if A > consumed then (A : Int) - consumed
  else 0

/-! ## Concrete fixtures used by witnesses and counterexamples -/

/-- An empty big-endian reader. -/
def rdEmpty : BinaryReader := ⟨.big, [], 0, []⟩

/-- A one-byte big-endian reader. -/
def rdOne : BinaryReader := ⟨.big, [3], 0, []⟩

/-- A custom `Reader` implementation that consumes nothing and yields 7. -/
def fCustom : BinaryReader → Except Err (Value × BinaryReader) := fun r => .ok (.vUInt 7, r)

/-! ## Helper lemmas about the executable bitwise operations -/

theorem natBitAux_testBit (f : Bool → Bool → Bool) (hf : f false false = false) :
    ∀ (fuel m n k : Nat), m < 2 ^ fuel → n < 2 ^ fuel →
      (natBitAux f fuel m n).testBit k = f (m.testBit k) (n.testBit k) := by
  intro fuel
  induction fuel with
  | zero =>
    intro m n k hm hn
    simp only [pow_zero, Nat.lt_one_iff] at hm hn
    subst hm; subst hn
    simp [natBitAux, hf]
  | succ fuel ih =>
    intro m n k hm hn
    have hm2 : m / 2 < 2 ^ fuel := by
      rw [Nat.div_lt_iff_lt_mul (by norm_num)]
      calc m < 2 ^ (fuel + 1) := hm
        _ = 2 ^ fuel * 2 := by ring
    have hn2 : n / 2 < 2 ^ fuel := by
      rw [Nat.div_lt_iff_lt_mul (by norm_num)]
      calc n < 2 ^ (fuel + 1) := hn
        _ = 2 ^ fuel * 2 := by ring
    have hb : (cond (f (m % 2 == 1) (n % 2 == 1)) 1 0) ≤ 1 := by
      cases f (m % 2 == 1) (n % 2 == 1) <;> simp
    cases k with
    | zero =>
      simp only [natBitAux, Nat.testBit_zero]
      have hmod : (cond (f (m % 2 == 1) (n % 2 == 1)) 1 0 + 2 * natBitAux f fuel (m / 2) (n / 2)) % 2
          = cond (f (m % 2 == 1) (n % 2 == 1)) 1 0 := by
        omega
      rw [hmod]
      have e1 : (m % 2 == 1) = decide (m % 2 = 1) := by
        cases h : m % 2 == 1 <;> simp_all
      have e2 : (n % 2 == 1) = decide (n % 2 = 1) := by
        cases h : n % 2 == 1 <;> simp_all
      rw [← e1, ← e2]
      cases f (m % 2 == 1) (n % 2 == 1) <;> simp
    | succ k =>
      simp only [natBitAux, Nat.testBit_succ]
      have hdiv : (cond (f (m % 2 == 1) (n % 2 == 1)) 1 0 + 2 * natBitAux f fuel (m / 2) (n / 2)) / 2
          = natBitAux f fuel (m / 2) (n / 2) := by
        omega
      rw [hdiv, ih (m / 2) (n / 2) k hm2 hn2]

theorem natDiffBits_testBit (m n k : Nat) :
    (natDiffBits m n).testBit k = (m.testBit k && !(n.testBit k)) := by
  have hm : m < 2 ^ (m + n + 1) :=
    lt_of_lt_of_le (Nat.lt_two_pow m) (Nat.pow_le_pow_right (by norm_num) (by omega))
  have hn : n < 2 ^ (m + n + 1) :=
    lt_of_lt_of_le (Nat.lt_two_pow n) (Nat.pow_le_pow_right (by norm_num) (by omega))
  exact natBitAux_testBit (fun a b => a && !b) rfl (m + n + 1) m n k hm hn

/-- Clearing the low `k` bits of `x` rounds it down to a multiple of `2 ^ k`. -/
theorem natDiffBits_mask (x k : Nat) : natDiffBits x (2 ^ k - 1) = x / 2 ^ k * 2 ^ k := by
  have hr : x / 2 ^ k * 2 ^ k = (x >>> k) <<< k := by
    rw [Nat.shiftRight_eq_div_pow, Nat.shiftLeft_eq]
  rw [hr]
  apply Nat.eq_of_testBit_eq
  intro i
  rw [natDiffBits_testBit, Nat.testBit_two_pow_sub_one, Nat.testBit_shiftLeft,
    Nat.testBit_shiftRight]
  by_cases h : i < k
  · simp [h, Nat.not_le.mpr h]
  · have hik : k + (i - k) = i := by omega
    simp [h, Nat.le_of_not_lt h, hik]

theorem intNot_ofNat (b : Nat) : intNot (Int.ofNat b) = Int.negSucc b := by
  simp [intNot, Int.negSucc_eq]
  ring

theorem intAndNot_natCast (a b : Nat) :
    intAndNot (a : Int) (b : Int) = ((natDiffBits a b : Nat) : Int) := by
  rw [intAndNot]
  have h : intNot (b : Int) = Int.negSucc b := intNot_ofNat b
  rw [h]
  rfl

/-! ## Helper lemmas about the byte-level reader -/

theorem Read_spec {r : BinaryReader} {n : Nat} {data : List Nat} {r' : BinaryReader}
    (h : r.Read n = .ok (data, r')) :
    data = (r.data.drop r.pos).take n ∧
      r' = { r with pos := r.pos + n, trace := r.trace ++ [.read n] } ∧
      (n = 0 ∨ r.pos + n ≤ r.data.length) := by
  unfold BinaryReader.Read at h
  by_cases h0 : n = 0
  · subst h0
    simp at h
    refine ⟨?_, ?_, Or.inl rfl⟩
    · simp [← h.1]
    · exact h.2.symm
  · simp [h0] at h
    by_cases hle : r.pos + n ≤ r.data.length
    · simp [hle] at h
      obtain ⟨h1, h2⟩ := h
      exact ⟨h1.symm, h2.symm, Or.inr hle⟩
    · simp [hle] at h

theorem Read_ok_of_le {r : BinaryReader} {n : Nat} (h : r.pos + n ≤ r.data.length) :
    r.Read n = .ok ((r.data.drop r.pos).take n,
      { r with pos := r.pos + n, trace := r.trace ++ [.read n] }) := by
  unfold BinaryReader.Read
  by_cases h0 : n = 0
  · subst h0
    simp
  · simp [h0, h]

/-! ## Helper characterisations of single-scalar decodes -/

theorem ReadValue_u8_ok (fuel : Nat) (v : Value) (r : BinaryReader) (h : r.pos < r.data.length) :
    ReadValue (fuel + 1) .u8 v r =
      .ok (.vUInt (r.data.get ⟨r.pos, h⟩),
        { r with pos := r.pos + 1, trace := r.trace ++ [.read 1] }) := by
  have h1 : r.pos + 1 ≤ r.data.length := h
  have hd : (r.data.drop r.pos).take 1 = [r.data.get ⟨r.pos, h⟩] := by
    rw [List.drop_eq_getElem_cons h]
    rfl
  simp only [ReadValue, BinaryReader.Uint8, Read_ok_of_le h1, hd]
  cases hE : r.Endianess <;> simp [hE, endVal, beVal]

theorem readElems_u8_ok (fuel : Nat) (vs : List Value) :
    ∀ (r : BinaryReader), r.pos + vs.length ≤ r.data.length →
      readElems (ReadValue (fuel + 1) .u8) vs r =
        .ok (((r.data.drop r.pos).take vs.length).map Value.vUInt,
          { r with pos := r.pos + vs.length,
                   trace := r.trace ++ List.replicate vs.length (.read 1) }) := by
  induction vs with
  | nil =>
    intro r h
    simp [readElems]
  | cons v rest ih =>
    intro r h
    have hp : r.pos < r.data.length := by
      simp only [List.length_cons] at h
      omega
    have h2 : ({ r with pos := r.pos + 1, trace := r.trace ++ [Ev.read 1] } : BinaryReader).pos
        + rest.length ≤
        ({ r with pos := r.pos + 1, trace := r.trace ++ [Ev.read 1] } : BinaryReader).data.length := by
      simp only [List.length_cons] at h
      simp only []
      omega
    simp only [readElems, ReadValue_u8_ok fuel v r hp, ih _ h2]
    rw [List.drop_eq_getElem_cons hp]
    simp only [List.length_cons, List.take_succ_cons, List.map_cons, List.replicate_succ,
      List.get_eq_getElem]
    rw [List.append_assoc]
    have e1 : r.pos + 1 + rest.length = r.pos + (rest.length + 1) := by omega
    rw [e1]
    rfl

theorem Uint32_ok {r : BinaryReader} {d : Nat} {r' : BinaryReader}
    (h : r.Uint32 = .ok (d, r')) :
    r' = { r with pos := r.pos + 4, trace := r.trace ++ [.read 4] } := by
  unfold BinaryReader.Uint32 at h
  cases h4 : r.Read 4 with
  | error e =>
    rw [h4] at h
    cases h
  | ok p =>
    obtain ⟨bs, r2⟩ := p
    rw [h4] at h
    cases h
    exact (Read_spec h4).2.1

theorem ReadValue_u32_ok {fuel : Nat} {w : Value} {r : BinaryReader} {v' : Value}
    {r' : BinaryReader} (h : ReadValue (fuel + 1) .u32 w r = .ok (v', r')) :
    r' = { r with pos := r.pos + 4, trace := r.trace ++ [.read 4] } := by
  simp only [ReadValue] at h
  cases h4 : r.Uint32 with
  | error e =>
    rw [h4] at h
    cases h
  | ok p =>
    obtain ⟨d, r2⟩ := p
    rw [h4] at h
    cases h
    exact Uint32_ok h4

/-! ## Claim theorems -/

/-- C1 (code evaluated at the failing input): a destination implementing
both the custom `Reader` interface (whose `Read` completes successfully,
yielding 42 without touching the source) and `Validateable` (whose
`Validate` fails) — `ReadInterface` returns success, not the validation
failure: the custom-decode path returns `ri.Read(r)` directly (line 61)
and never reaches the `Validateable` check (line 333), contradicting the
package's own documentation of `Validateable` (lines 23-27). -/
theorem C1_custom_read_bypasses_validate :
    ReadInterface
        ⟨some (fun r => .ok (.vUInt 42, r)), some (some .validationFailed), true, .u8, .vUInt 0⟩
        rdOne =
      .ok (.vUInt 42, rdOne) :=
  rfl

/-- C9: for a destination implementing the custom `Reader` interface,
`ReadInterface` delegates to the custom routine without first checking
that the destination is a pointer (the result is the custom routine's
result whatever `isPtr` is); the `NotAddressable` ("Expected a
pointer") error of the generic path arises exactly for non-pointer
destinations without a custom decode routine. -/
theorem C9_custom_read_before_ptr_check (d : GoDest) (r : BinaryReader) :
    (∀ f, d.customRead = some f → ReadInterface d r = f r) ∧
    (d.customRead = none → d.isPtr = false → ReadInterface d r = .error .notAddressable) := by
  constructor
  · intro f hf
    simp [ReadInterface, hf]
  · intro h1 h2
    simp [ReadInterface, h1, h2]

/-- C9 witness: at a concrete non-pointer destination carrying a custom
routine, `ReadInterface` returns the custom routine's result, and at a
concrete non-pointer destination without one it returns
`NotAddressable`. -/
theorem C9_witness :
    ReadInterface ⟨some fCustom, none, false, .u8, .vUInt 0⟩ rdEmpty = fCustom rdEmpty ∧
    ReadInterface ⟨none, none, false, .u8, .vUInt 0⟩ rdEmpty = .error .notAddressable :=
  ⟨(C9_custom_read_before_ptr_check ⟨some fCustom, none, false, .u8, .vUInt 0⟩ rdEmpty).1
      fCustom rfl,
    (C9_custom_read_before_ptr_check ⟨none, none, false, .u8, .vUInt 0⟩ rdEmpty).2 rfl rfl⟩

/-- C3 counterexample: a `skip:"1-2"` directive makes the engine issue a
relative seek of `-1` — a backward seek — during a decode that then
completes successfully: starting at position 1 of the source `[5, 7]`,
the field is read from position 0 (its value is 5, the byte before the
start position).  The claim that every seek the engine issues has a
non-negative offset is false. -/
theorem C3_counterexample :
    ReadValue 2 (.strct [("A", { skip := some "1-2" }, .u8)])
        (goZero (.strct [("A", { skip := some "1-2" }, .u8)]))
        ⟨.little, [5, 7], 1, []⟩ =
      .ok (.vStruct [("A", .vUInt 5)],
        ⟨.little, [5, 7], 1, [.seek .skip (-1), .read 1]⟩) ∧
    (-1 : Int) < 0 :=
  ⟨rfl, by decide⟩

/-- C3 (amended): alignment-padding seeks are always forward — the
alignment processing (`alignAdjust`, reader.go lines 318-327) either
leaves the trace unchanged or issues one seek whose offset is positive,
because the correction is guarded by `seek > 0`; it is the
`skip`-directive seeks that pass the evaluated expression through
unchecked and may be negative. -/
theorem C3_align_seeks_forward (size align : Int) (r r' : BinaryReader)
    (h : alignAdjust size align r = .ok r') :
    r'.trace = r.trace ∨
      (goAlignSeek size align > 0 ∧
        r'.trace = r.trace ++ [.seek .align (goAlignSeek size align)]) := by
  unfold alignAdjust at h
  by_cases hs : goAlignSeek size align > 0
  · right
    refine ⟨hs, ?_⟩
    rw [if_pos hs] at h
    unfold BinaryReader.Seek at h
    by_cases hneg : ((r.trace ++ [Ev.seek .align (goAlignSeek size align)]).length : Int) < 0
    · simp at h
      split at h
      · exact absurd h (by simp)
      · cases h
        rfl
    · simp at h
      split at h
      · exact absurd h (by simp)
      · cases h
        rfl
  · left
    rw [if_neg hs] at h
    cases h
    rfl

/-- C3 amended witness: aligning a 3-byte field to 4 issues the single
positive padding seek of 1. -/
theorem C3_amended_witness :
    (⟨.big, [], 1, [.seek .align 1]⟩ : BinaryReader).trace = rdEmpty.trace ∨
      (goAlignSeek 3 4 > 0 ∧
        (⟨.big, [], 1, [Ev.seek .align 1]⟩ : BinaryReader).trace =
          rdEmpty.trace ++ [.seek .align (goAlignSeek 3 4)]) :=
  C3_align_seeks_forward 3 4 rdEmpty _ rfl

/-- C6: a field whose `condition` directive evaluates to 0 is skipped
entirely — for a record all of whose fields carry conditions evaluating
to 0 against the record value, the field iteration returns the record
value unchanged (every destination field keeps its value, in particular
its default) and the reader unchanged (zero bytes consumed, no reads,
no seeks, no length or alignment processing). -/
theorem C6_condition_zero_skips_all
    (fb : Value → Tags → Ty → Value → Int → BinaryReader → Except Err (Value × Int × BinaryReader))
    (fields : List (String × Tags × Ty)) (cur : List (String × Value)) (r : BinaryReader)
    (h : ∀ f ∈ fields, ∃ c, (f.2.1).cond = some c ∧ evalTag (.vStruct cur) c = .ok 0) :
    readFields fb fields cur r = .ok (cur, r) := by
  induction fields with
  | nil => rfl
  | cons f rest ih =>
    obtain ⟨name, tags, fty⟩ := f
    obtain ⟨c, hc, he⟩ := h _ (List.mem_cons_self _ _)
    have hc' : tags.cond = some c := hc
    have hcs : condSkips (.vStruct cur) tags = .ok true := by
      simp only [condSkips, hc', he]
      rfl
    simp only [readFields, hcs]
    exact ih fun f hf => h f (List.mem_cons_of_mem _ hf)

/-- C6 witness: a two-field record (a `length`-directed `[]uint8` field
and a `u32` field), both fields carrying `if:"0"`, decodes to its
unchanged zero value consuming zero bytes from a 3-byte source. -/
theorem C6_witness :
    readFields (readFieldBody (ReadValue 1))
        [("A", { cond := some "0", length := some "4" }, .slice .u8),
         ("B", { cond := some "0" }, .u32)]
        [("A", .vSlice []), ("B", .vUInt 0)] ⟨.big, [1, 2, 3], 0, []⟩ =
      .ok ([("A", .vSlice []), ("B", .vUInt 0)], ⟨.big, [1, 2, 3], 0, []⟩) :=
  C6_condition_zero_skips_all _ _ _ _ (by
    intro f hf
    simp only [List.mem_cons, List.mem_singleton] at hf
    rcases hf with h | h | h
    · subst h
      exact ⟨"0", rfl, rfl⟩
    · subst h
      exact ⟨"0", rfl, rfl⟩
    · cases h)

/-- C8: the expression parser has no implicit operator precedence — the
input `"1+2+3"` fails to parse, while the explicitly grouped
`"(1+2)+3"` parses successfully (to the left-grouped AST); nesting more
than one binary operation requires parenthesising a sub-expression. -/
theorem C8_no_operator_precedence :
    parseExpression "1+2+3" = none ∧
    parseExpression "(1+2)+3" =
      some (.bin .add (.bin .add (.const 1) (.const 2)) (.const 3)) :=
  ⟨rfl, rfl⟩

/-- C7: a string-typed field whose `length` directive resolved to `n`
is decoded by reading exactly `n` bytes (one `Read(n)` call, advancing
the position by exactly `n`) and truncating the bytes read at the first
embedded null byte, discarding what follows the null without an
error. -/
theorem C7_string_length_read_truncate
    (rv : Ty → Value → BinaryReader → Except Err (Value × BinaryReader))
    (ctx : Value) (tags : Tags) (fval : Value) (n : Nat) (r : BinaryReader)
    (h : r.pos + n ≤ r.data.length) :
    readFieldBody rv ctx tags .str fval (n : Int) r =
      .ok (.vStr (truncAtNull ((r.data.drop r.pos).take n)), (n : Int),
        { r with pos := r.pos + n, trace := r.trace ++ [.read n] }) := by
  have hn : ((n : Int) ≥ 0) := Int.natCast_nonneg n
  simp only [readFieldBody, hn, if_pos, ge_iff_le, Int.toNat_natCast, Read_ok_of_le h]

/-- C7 witness: a `length = 8` string field over the bytes of
`"abc\0xxxx"` decodes to `"abc"` (bytes `[97, 98, 99]`) while consuming
all 8 bytes (position 0 to 8, a single 8-byte read). -/
theorem C7_witness :
    readFieldBody (ReadValue 1) (.vStruct []) {} .str (.vStr []) ((8 : Nat) : Int)
        ⟨.big, [97, 98, 99, 0, 120, 120, 120, 120], 0, []⟩ =
      .ok (.vStr [97, 98, 99], (8 : Int),
        ⟨.big, [97, 98, 99, 0, 120, 120, 120, 120], 8, [.read 8]⟩) :=
  C7_string_length_read_truncate (ReadValue 1) (.vStruct []) {} (.vStr []) 8
    ⟨.big, [97, 98, 99, 0, 120, 120, 120, 120], 0, []⟩ (by decide)

/-- C10: a slice field of element kind `int8` with a resolved length
`n ≥ 1` and `n` bytes available takes the raw-block branch (reader.go
lines 282-287), which stores the `[]uint8` value produced by
`BinaryReader.Read` into the `[]int8` destination; `reflect.Value.Set`
rejects the ill-typed assignment, so decoding such a field never
completes successfully. -/
theorem C10_int8_slice_raw_branch_ill_typed
    (rv : Ty → Value → BinaryReader → Except Err (Value × BinaryReader))
    (ctx : Value) (tags : Tags) (fval : Value) (n : Nat) (r : BinaryReader)
    (hn : 1 ≤ n) (h : r.pos + n ≤ r.data.length) :
    readFieldBody rv ctx tags (.slice .i8) fval (n : Int) r = .error .assignKindMismatch := by
  have h1 : ¬((n : Int) = -1) := by omega
  have h2 : ¬((n : Int) < 0) := by omega
  simp only [readFieldBody, h1, if_neg, h2, if_false, Int.toNat_natCast, Read_ok_of_le h,
    assignable, kindTag]
  rfl

/-- C10 witness: a `[]int8` field with resolved length 2 over the
2-byte source `[1, 2]` fails with the assignment panic. -/
theorem C10_witness :
    readFieldBody (ReadValue 1) (.vStruct []) {} (.slice .i8) (.vSlice []) ((2 : Nat) : Int)
        ⟨.big, [1, 2], 0, []⟩ =
      .error .assignKindMismatch :=
  C10_int8_slice_raw_branch_ill_typed (ReadValue 1) (.vStruct []) {} (.vSlice []) 2
    ⟨.big, [1, 2], 0, []⟩ (by decide) (by decide)

/-- C4 counterexample: a sequence field of element kind `uint8` with
length 4 is NOT decoded as one raw 4-byte read: the raw-block branch of
reader.go line 282 fires only for element kind `int8`, so a `[]uint8`
field is decoded per element — the decode issues four separate 1-byte
`Read` calls (trace `[read 1, read 1, read 1, read 1]`), not the single
`read 4` the claim describes.  (The total of 4 bytes consumed does
hold.) -/
theorem C4_counterexample :
    ReadValue 2 (.strct [("A", { length := some "4" }, .slice .u8)])
        (goZero (.strct [("A", { length := some "4" }, .slice .u8)]))
        ⟨.little, [9, 8, 7, 6], 0, []⟩ =
      .ok (.vStruct [("A", .vSlice [.vUInt 9, .vUInt 8, .vUInt 7, .vUInt 6])],
        ⟨.little, [9, 8, 7, 6], 4, [.read 1, .read 1, .read 1, .read 1]⟩) ∧
    ([.read 1, .read 1, .read 1, .read 1] : List Ev) ≠ [.read 4] :=
  ⟨rfl, by decide⟩

/-- C4 (amended): only sequences of element kind `int8` take the raw
single-read branch (and that branch never completes, see C10); a
sequence field of element kind `uint8` whose `length` resolved to `n`,
with `n` bytes available, is decoded element by element — `n` separate
1-byte reads — storing the `n` bytes as the elements and consuming
exactly `n` bytes in total with no per-element framing. -/
theorem C4_uint8_slice_per_element (fuel : Nat)
    (ctx : Value) (tags : Tags) (fval : Value) (n : Nat) (r : BinaryReader)
    (h : r.pos + n ≤ r.data.length) :
    readFieldBody (ReadValue (fuel + 1)) ctx tags (.slice .u8) fval (n : Int) r =
      .ok (.vSlice (((r.data.drop r.pos).take n).map Value.vUInt), (n : Int),
        { r with pos := r.pos + n, trace := r.trace ++ List.replicate n (.read 1) }) := by
  have h1 : ¬((n : Int) = -1) := by omega
  have h2 : ¬((n : Int) < 0) := by omega
  have hlen : (List.replicate n (goZero .u8)).length = n := List.length_replicate n _
  have hr : r.pos + (List.replicate n (goZero .u8)).length ≤ r.data.length := by
    rw [hlen]
    exact h
  simp only [readFieldBody, h1, if_neg, h2, if_false, Int.toNat_natCast,
    readElems_u8_ok fuel (List.replicate n (goZero .u8)) r hr, hlen]

/-- C4 witness: four available bytes `[9, 8, 7, 6]` and a resolved
length of 4 decode to the four `uint8` elements in order, via four
1-byte reads, ending at position 4. -/
theorem C4_witness :
    readFieldBody (ReadValue 1) (.vStruct []) {} (.slice .u8) (.vSlice []) ((4 : Nat) : Int)
        ⟨.little, [9, 8, 7, 6], 0, []⟩ =
      .ok (.vSlice [.vUInt 9, .vUInt 8, .vUInt 7, .vUInt 6], ((4 : Nat) : Int),
        ⟨.little, [9, 8, 7, 6], 4, [.read 1, .read 1, .read 1, .read 1]⟩) :=
  C4_uint8_slice_per_element 0 (.vStruct []) {} (.vSlice []) 4
    ⟨.little, [9, 8, 7, 6], 0, []⟩ (by decide)

/-- C2 counterexample: alignment is not computed from the bytes the
field's decode consumed.  A `[]uint32` field with `length:"2"` and
`align:"8"` consumes 8 bytes (two 4-byte reads, position 0 → 8); with
alignment 8 equal to the 8 consumed bytes the claim demands no
correction seek (indeed `goAlignSeek 8 8 = 0`), yet the engine issues an
alignment seek of 6 — it computed the correction from the recorded
`size` local, which for slices is the element count 2, not the bytes
consumed. -/
theorem C2_counterexample :
    ReadValue 2 (.strct [("A", { length := some "2", align := some "8" }, .slice .u32)])
        (goZero (.strct [("A", { length := some "2", align := some "8" }, .slice .u32)]))
        ⟨.little, [1, 0, 0, 0, 2, 0, 0, 0], 0, []⟩ =
      .ok (.vStruct [("A", .vSlice [.vUInt 1, .vUInt 2])],
        ⟨.little, [1, 0, 0, 0, 2, 0, 0, 0], 14, [.read 4, .read 4, .seek .align 6]⟩) ∧
    goAlignSeek 8 8 = 0 :=
  ⟨rfl, rfl⟩

/-- C2 (amended): the alignment correction is computed from the
engine's recorded `size` local, which does not uniformly equal the
bytes consumed: for a sequence (slice) field it is the resolved element
count whatever the element width, while for a fixed-width scalar field
(here `uint32`) it is the type's size, which does coincide with the
bytes consumed (a successful `uint32` field decode records size 4 and
advances the position by exactly 4 via one 4-byte read). -/
theorem C2_recorded_size_by_kind :
    (∀ rv ctx tags elemT fval (n : Nat) (r : BinaryReader) v sz r',
        readFieldBody rv ctx tags (.slice elemT) fval (n : Int) r = .ok (v, sz, r') →
        sz = (n : Int)) ∧
    (∀ (fuel : Nat) ctx tags fval (size0 : Int) (r : BinaryReader) v sz r',
        readFieldBody (ReadValue (fuel + 1)) ctx tags .u32 fval size0 r = .ok (v, sz, r') →
        sz = 4 ∧ r'.pos = r.pos + 4 ∧ r'.trace = r.trace ++ [.read 4]) := by
  constructor
  · intro rv ctx tags elemT fval n r v sz r' hok
    have h1 : ¬((n : Int) = -1) := by omega
    have h2 : ¬((n : Int) < 0) := by omega
    simp only [readFieldBody, h1, if_neg, h2, if_false, Int.toNat_natCast] at hok
    split at hok
    · split at hok
      · simp at hok
      · simp [assignable, kindTag] at hok
    · split at hok
      · simp at hok
      · injection hok with h3
        injection h3 with hv h4
        injection h4 with hs hr
        exact hs.symm
  · intro fuel ctx tags fval size0 r v sz r' hok
    simp only [readFieldBody] at hok
    cases h4 : ReadValue (fuel + 1) .u32 fval r with
    | error e =>
      rw [h4] at hok
      cases hok
    | ok p =>
      obtain ⟨v2, r2⟩ := p
      rw [h4] at hok
      injection hok with h3
      injection h3 with hv h5
      injection h5 with hs hr
      have hr2 := ReadValue_u32_ok h4
      subst hr
      rw [hr2]
      exact ⟨hs.symm, rfl, rfl⟩

/-- C2 witness: a `[]uint8` field with resolved length 2 records size 2,
and a `uint32` field decode records size 4 while moving the position
from 0 to 4 with a single 4-byte read. -/
theorem C2_witness :
    ((2 : Int) = ((2 : Nat) : Int)) ∧
    ((4 : Int) = 4 ∧
      (⟨.big, [0, 0, 0, 7], 4, [Ev.read 4]⟩ : BinaryReader).pos =
        (⟨.big, [0, 0, 0, 7], 0, []⟩ : BinaryReader).pos + 4 ∧
      (⟨.big, [0, 0, 0, 7], 4, [Ev.read 4]⟩ : BinaryReader).trace =
        (⟨.big, [0, 0, 0, 7], 0, []⟩ : BinaryReader).trace ++ [.read 4]) :=
  ⟨C2_recorded_size_by_kind.1 (ReadValue 1) (.vStruct []) {} .u8 (.vSlice []) 2
      ⟨.big, [5, 6], 0, []⟩ (.vSlice [.vUInt 5, .vUInt 6]) 2
      ⟨.big, [5, 6], 2, [.read 1, .read 1]⟩ rfl,
   C2_recorded_size_by_kind.2 0 (.vStruct []) {} (.vUInt 0) (-1)
      ⟨.big, [0, 0, 0, 7], 0, []⟩ (.vUInt 7) 4
      ⟨.big, [0, 0, 0, 7], 4, [.read 4]⟩ rfl⟩

/-- C5 counterexample: the claim's formula `round_up(size, A) - size`
fails for a non-power-of-two alignment: with recorded size 4 and
`align = 3` the engine's correction (`goAlignSeek`, the value
`alignAdjust` seeks by) is 0, while the claimed formula demands
`round_up(4, 3) - 4 = 2`.  A concrete decode of a `u32` field with
`align:"3"` indeed performs no alignment seek (final position 4, one
4-byte read, no seek event). -/
theorem C5_counterexample :
    goAlignSeek 4 3 = 0 ∧
    specAlignSeek 4 3 = 2 ∧
    ReadValue 2 (.strct [("A", { align := some "3" }, .u32)])
        (goZero (.strct [("A", { align := some "3" }, .u32)]))
        ⟨.little, [1, 0, 0, 0, 9, 9], 0, []⟩ =
      .ok (.vStruct [("A", .vUInt 1)], ⟨.little, [1, 0, 0, 0, 9, 9], 4, [.read 4]⟩) :=
  ⟨rfl, rfl, rfl⟩

/-- C5 (amended): for power-of-two alignments the claimed formula is
exactly what the engine computes: for every recorded size and every
`A = 2 ^ k`, `goAlignSeek` equals the spec's three-case description
(round up to the next multiple when `A < size`, pad by `A - size` when
`A > size`, nothing when equal); in particular size 3 with `A = 4` gives
1 byte of padding and size 5 with `A = 4` gives 3. -/
theorem C5_alignment_pow2 (size k : Nat) :
    goAlignSeek (size : Int) ((2 ^ k : Nat) : Int) = specAlignSeek size (2 ^ k) := by
  have hA : 1 ≤ 2 ^ k := Nat.one_le_two_pow
  unfold goAlignSeek specAlignSeek
  by_cases h1 : 2 ^ k < size
  · rw [if_pos (by exact_mod_cast h1), if_pos h1]
    have e1 : ((2 ^ k - 1 : Nat) : Int) = ((2 ^ k : Nat) : Int) - 1 := by
      rw [Nat.cast_sub hA]
      simp
    have e2 : ((size + (2 ^ k - 1) : Nat) : Int) = (size : Int) + (((2 ^ k : Nat) : Int) - 1) := by
      rw [Nat.cast_add, e1]
    rw [← e2, ← e1, intAndNot_natCast, natDiffBits_mask]
    have e3 : size + (2 ^ k - 1) = size + 2 ^ k - 1 := by omega
    rw [e3]
    simp [specRoundUp]
  · rw [if_neg (by exact_mod_cast h1), if_neg h1]
    by_cases h2 : 2 ^ k > size
    · rw [if_pos (by exact_mod_cast h2), if_pos h2]
    · rw [if_neg (by exact_mod_cast h2), if_neg h2]

end BinUtil
